import Mathlib

/-!
Verification of the CSS parsing / document-tree core of node-webrender
(libgraffiti).  The Rust sources embedded here:

  * `src/libgraffiti/src/css/parser.rs` — tokenizer, selector / value /
    style / stylesheet parsers (pom parser combinators over `&str` tokens);
  * `src/libgraffiti/src/document.rs` — observable document tree.

Bytes are modelled as `Nat` (values 0–255), tokens as `List Nat` (the Rust
tokens are `&str` slices of the input), `f32` values per Rust's `FromStr`
grammar as exact decimals plus the `inf`/`infinity`/`nan` spellings
(`F32`).  Parsers follow pom's PEG
semantics: ordered choice with backtracking, greedy repetition.  A Rust
panic (`unwrap` on `Err`/`None`) is modelled as a distinguished `panicked`
outcome that propagates and is never caught by alternation.
-/

namespace Graffiti

/-! ## Byte classes (pom::char_class and parser.rs helpers) -/

/-- `pom::char_class::alpha`: ASCII letter. -/
def isAlphaB (b : Nat) : Bool := (65 ≤ b && b ≤ 90) || (97 ≤ b && b ≤ 122)

/-- `pom::char_class::digit`: ASCII digit. -/
def isDigitB (b : Nat) : Bool := 48 ≤ b && b ≤ 57

/-- `pom::char_class::alphanum`. -/
def alphanumB (b : Nat) : Bool := isAlphaB b || isDigitB b

/-- `alphanum_dash` from parser.rs: `alphanum(b) || b == b'-'`. -/
def alphanum_dash (b : Nat) : Bool := alphanumB b || b == 45

/-- member of `b" \t\r\n"` (the `one_of` set of the `space` rule). -/
def isSpaceB (b : Nat) : Bool := b == 32 || b == 9 || b == 13 || b == 10

/-- member of `b".0123456789"` (the `one_of` set of the `num` rule). -/
def isNumB (b : Nat) : Bool := b == 46 || isDigitB b

/-- ASCII bytes of a Lean string literal (all inputs in scope are ASCII). -/
def s2b (s : String) : List Nat := s.toList.map Char.toNat

/-! ## Tokenizer (`tokenize` in parser.rs)

Raw pass: `comment.opt() * (space | hex_or_id | num | ident | string1 |
string2 | special)` repeated greedily from position 0; `parse` in pom does
not require the whole input to be consumed, so the repetition simply stops
at the first position where no alternative matches (end of input, or an
unterminated trailing comment). -/

/-- A token: the byte slice of the input it covers. -/
abbrev Tok := List Nat

/-- Scan the body of a `/* ... */` comment: consume up to and including the
first `*/`; `none` if the comment is unterminated. -/
def findCommentEnd : List Nat → Option (List Nat)
  | 42 :: 47 :: rest => some rest
  | _ :: rest => findCommentEnd rest
  | [] => none

/-- `comment = seq(b"/*") * (!seq(b"*/") * skip(1)).repeat(0..) - seq(b"*/")`. -/
def skipComment : List Nat → Option (List Nat)
  | 47 :: 42 :: rest => findCommentEnd rest
  | _ => none

/-- `string1`/`string2` body: content up to the closing quote `q`,
returning `(content, rest-after-close)`; `none` if unterminated. -/
def scanString (q : Nat) : List Nat → Option (List Nat × List Nat)
  | [] => none
  | b :: rest =>
    if b == q then some ([], rest)
    else match scanString q rest with
      | some (c, r) => some (b :: c, r)
      | none => none

/-- One raw token at the current position (after any comment skip), given
the byte just before the position (`prev`, for the `prev(1)`-guarded
`hex_or_id` rule).  Returns `(token, last byte consumed, rest)`.
Alternatives in source order: `space | hex_or_id | num | ident | string1 |
string2 | special`. -/
def tokenAlt (prev : Option Nat) : List Nat → Option (Tok × Nat × List Nat)
  | [] => none
  | b :: rest =>
    if isSpaceB b then
      let run := (b :: rest).takeWhile isSpaceB
      some ([32], run.getLastD b, (b :: rest).dropWhile isSpaceB)
    else if prev == some 35 && alphanumB b then
      let run := (b :: rest).takeWhile alphanumB
      some (run, run.getLastD b, (b :: rest).dropWhile alphanumB)
    else if b == 45 && isNumB (rest.headD 0) && rest ≠ [] then
      let run := rest.takeWhile isNumB
      some (45 :: run, run.getLastD b, rest.dropWhile isNumB)
    else if isNumB b then
      let run := (b :: rest).takeWhile isNumB
      some (run, run.getLastD b, (b :: rest).dropWhile isNumB)
    else if alphanum_dash b then
      let run := (b :: rest).takeWhile alphanum_dash
      some (run, run.getLastD b, (b :: rest).dropWhile alphanum_dash)
    else if b == 39 then
      match scanString 39 rest with
      | some (c, r) => some (39 :: (c ++ [39]), 39, r)
      | none => some ([b], b, rest)
    else if b == 34 then
      match scanString 34 rest with
      | some (c, r) => some (34 :: (c ++ [34]), 34, r)
      | none => some ([b], b, rest)
    else
      some ([b], b, rest)

/-- Is a byte a UTF-8 continuation byte (`0x80`–`0xBF`)? -/
def isCont (b : Nat) : Bool := 128 ≤ b && b ≤ 191

/-- Validity of a byte sequence as UTF-8, exactly as
`std::str::from_utf8` checks it (well-formed UTF-8: no overlongs, no
surrogates, code points ≤ U+10FFFF). -/
def isValidUtf8 : List Nat → Bool
  | [] => true
  | b :: rest =>
    if b ≤ 127 then isValidUtf8 rest
    else if 194 ≤ b && b ≤ 223 then
      match rest with
      | c1 :: r => isCont c1 && isValidUtf8 r
      | [] => false
    else if b = 224 then
      match rest with
      | c1 :: c2 :: r => (160 ≤ c1 && c1 ≤ 191) && isCont c2 && isValidUtf8 r
      | _ => false
    else if 225 ≤ b && b ≤ 236 then
      match rest with
      | c1 :: c2 :: r => isCont c1 && isCont c2 && isValidUtf8 r
      | _ => false
    else if b = 237 then
      match rest with
      | c1 :: c2 :: r => (128 ≤ c1 && c1 ≤ 159) && isCont c2 && isValidUtf8 r
      | _ => false
    else if 238 ≤ b && b ≤ 239 then
      match rest with
      | c1 :: c2 :: r => isCont c1 && isCont c2 && isValidUtf8 r
      | _ => false
    else if b = 240 then
      match rest with
      | c1 :: c2 :: c3 :: r =>
        (144 ≤ c1 && c1 ≤ 191) && isCont c2 && isCont c3 && isValidUtf8 r
      | _ => false
    else if 241 ≤ b && b ≤ 243 then
      match rest with
      | c1 :: c2 :: c3 :: r => isCont c1 && isCont c2 && isCont c3 && isValidUtf8 r
      | _ => false
    else if b = 244 then
      match rest with
      | c1 :: c2 :: c3 :: r =>
        (128 ≤ c1 && c1 ≤ 143) && isCont c2 && isCont c3 && isValidUtf8 r
      | _ => false
    else false

/-- The raw tokenization loop: each round optionally skips one comment
(after which the byte before the position is `/` = 47), then reads one
token and converts it with `token.convert(std::str::from_utf8)`
(parser.rs:270) — a token span that is not valid UTF-8 fails the
conversion, which makes that round fail and ends the repetition,
dropping the span and all later input.  The loop also stops when no
alternative matches.  `fuel` bounds the rounds; every round consumes at
least one byte, so `input.length + 1` is always enough. -/
def rawLoop : Nat → Option Nat → List Nat → List Tok
  | 0, _, _ => []
  | Nat.succ fuel, prev, input =>
    let st : List Nat × Option Nat :=
      match skipComment input with
      | some rest => (rest, some 47)
      | none => (input, prev)
    match tokenAlt st.2 st.1 with
    | none => []
    | some (tok, last, rest) =>
      if isValidUtf8 tok then tok :: rawLoop fuel (some last) rest
      else []

/-- The keep-space class computed after each pushed token:
`alphanum_dash(t[0]) || t == "*" || t == "]"`. -/
def keepClass (t : Tok) : Bool :=
  alphanum_dash (t.headD 0) || t == [42] || t == [93]

/-- The class a following token must start with for a space to survive:
`alphanum_dash(next[0]) || next == "." || next == "#" || next == "*"`. -/
def startClass (t : Tok) : Bool :=
  alphanum_dash (t.headD 0) || t == [46] || t == [35] || t == [42]

/-- The whitespace-filtering pass of `tokenize` (the `for (i, &t)` loop):
a space is dropped unless `keep_space` is set, and — when a following raw
token exists — unless that token is in `startClass`.  A space with no
following token is pushed whenever `keep_space` is set. -/
def stripSpaces : Bool → List Tok → List Tok
  | _, [] => []
  | ks, t :: rest =>
    if t = [32] then
      if ks then
        match rest with
        | next :: _ =>
          if startClass next then t :: stripSpaces (keepClass t) rest
          else stripSpaces ks rest
        | [] => t :: stripSpaces (keepClass t) rest
      else stripSpaces ks rest
    else t :: stripSpaces (keepClass t) rest

/-- `tokenize(input)`: raw pass then whitespace filtering. -/
def tokenize (input : List Nat) : List Tok :=
  stripSpaces false (rawLoop (input.length + 1) none input)

/-! ## Parser-combinator semantics over token slices

pom's PEG semantics: ordered choice with backtracking, greedy
repetition, `parse` runs at position 0 and does not require the whole
input to be consumed.  A Rust panic inside a `convert`/`map` closure
(an `unwrap` on bad data) aborts the whole parse and is never caught by
`|`, so it is a third outcome distinct from a parse error. -/

/-- Outcome of running a parser: success with value and remaining tokens,
parse error (recoverable by `|`), or a Rust panic (not recoverable). -/
inductive PR (α : Type) : Type
  | ok : α → List Tok → PR α
  | err : PR α
  | panicked : PR α
  deriving DecidableEq, Repr

/-- A parser over the token stream. -/
def P (α : Type) : Type := List Tok → PR α

/-- Outcome of a complete Rust call: value, `Err`, or panic. -/
inductive RustRes (α : Type) : Type
  | ok : α → RustRes α
  | err : RustRes α
  | panicked : RustRes α
  deriving DecidableEq, Repr

/-- `sym(t)`: match one exact token. -/
def psym (t : Tok) : P Tok := fun ts =>
  match ts with
  | x :: r => if x = t then .ok x r else .err
  | [] => .err

/-- `any()`: consume one token. -/
def pany : P Tok := fun ts =>
  match ts with
  | x :: r => .ok x r
  | [] => .err

/-- `p.map(f)`. -/
def pmap {α β : Type} (f : α → β) (p : P α) : P β := fun ts =>
  match p ts with
  | .ok a r => .ok (f a) r
  | .err => .err
  | .panicked => .panicked

/-- `p | q`: ordered choice; a panic in `p` is not caught. -/
def palt {α : Type} (p q : P α) : P α := fun ts =>
  match p ts with
  | .err => q ts
  | r => r

/-- `p + q`: sequence keeping both results. -/
def ppair {α β : Type} (p : P α) (q : P β) : P (α × β) := fun ts =>
  match p ts with
  | .ok a r =>
    match q r with
    | .ok b r' => .ok (a, b) r'
    | .err => .err
    | .panicked => .panicked
  | .err => .err
  | .panicked => .panicked

/-- `p - q`: sequence keeping the left result. -/
def pleft {α β : Type} (p : P α) (q : P β) : P α := pmap Prod.fst (ppair p q)

/-- `p * q`: sequence keeping the right result. -/
def pright {α β : Type} (p : P α) (q : P β) : P β := pmap Prod.snd (ppair p q)

/-- `p.opt()`: never fails (but a panic still propagates). -/
def popt {α : Type} (p : P α) : P (Option α) := fun ts =>
  match p ts with
  | .ok a r => .ok (some a) r
  | .err => .ok none ts
  | .panicked => .panicked

/-- `p.convert(f)`: `Err` from the closure is a parse error. -/
def pconvert {α β : Type} (p : P α) (f : α → Option β) : P β := fun ts =>
  match p ts with
  | .ok a r =>
    match f a with
    | some b => .ok b r
    | none => .err
  | .err => .err
  | .panicked => .panicked

/-- `p.convert(f)` where the closure itself may panic. -/
def pconvertR {α β : Type} (p : P α) (f : α → RustRes β) : P β := fun ts =>
  match p ts with
  | .ok a r =>
    match f a with
    | .ok b => .ok b r
    | .err => .err
    | .panicked => .panicked
  | .err => .err
  | .panicked => .panicked

/-- Run a parser on a complete value slice and require it to consume the
slice entirely (the value parsers of §4.3 are fixed-arity: leftover tokens
are an arity mismatch). -/
def runFull {α : Type} (p : P α) (value : List Tok) : RustRes α :=
  match p value with
  | .ok a [] => .ok a
  | .ok _ (_ :: _) => .err
  | .err => .err
  | .panicked => .panicked

/-! ## Numeric literal parsing (`str::parse::<f32>` / `::<u8>`)

`f32` is modelled exactly per Rust's `FromStr` grammar: a finite value is
an exact decimal `num / 10 ^ exp` (Rust rounds it to the nearest `f32`;
the claims never depend on that rounding), and the special spellings
`inf` / `infinity` / `nan` (case-insensitive, optionally signed) give the
infinite / NaN values.  `F32` equality is representation equality, which
agrees with `f32` `PartialEq` on every comparison the claims perform (no
claim compares NaNs, where `f32` equality is irreflexive, and no parser
output reaches two different `Dec` spellings of one value). -/

/-- An `f32` value: an exact decimal `num / 10 ^ exp`, an infinity
(`neg` for `-inf`), or a NaN. -/
inductive F32
  | Dec (num : Int) (exp : Nat)
  | Inf (neg : Bool)
  | NaN
  deriving DecidableEq, Repr

/-- Shorthand for a whole-number float value. -/
def f32 (n : Nat) : F32 := .Dec n 0

/-- `f32` negation (what the leading `-` of a literal applies to). -/
def F32.neg : F32 → F32
  | .Dec n e => .Dec (-n) e
  | .Inf b => .Inf (!b)
  | .NaN => .NaN

/-- Value of a digit run. -/
def dval (l : List Nat) : Nat := l.foldl (fun a b => 10 * a + (b - 48)) 0

/-- Split a byte list at the first `.` (46). -/
def splitDot : List Nat → List Nat × Option (List Nat)
  | [] => ([], none)
  | 46 :: r => ([], some r)
  | b :: r =>
    let s := splitDot r
    (b :: s.1, s.2)

/-- Split a byte list at the first `e`/`E` (101/69). -/
def splitExp : List Nat → List Nat × Option (List Nat)
  | [] => ([], none)
  | b :: r =>
    if b = 101 || b = 69 then ([], some r)
    else
      let s := splitExp r
      (b :: s.1, s.2)

/-- ASCII lower-casing of one byte. -/
def asciiLower (b : Nat) : Nat := if 65 ≤ b && b ≤ 90 then b + 32 else b

/-- Case-insensitive comparison against a (lowercase) keyword. -/
def eqCI (t : List Nat) (s : String) : Bool := t.map asciiLower == s2b s

/-- Unsigned decimal core of Rust's float grammar: digits with an
optional dot (at least one digit overall), then an optional
`e`/`E`-exponent with its own optional sign and mandatory digits. -/
def parseDecCore (body : List Nat) : Option F32 :=
  let se := splitExp body
  let s := splitDot se.1
  let mOk : Bool :=
    match s.2 with
    | none => s.1 ≠ [] && s.1.all isDigitB
    | some f => (s.1 ++ f) ≠ [] && s.1.all isDigitB && f.all isDigitB
  if !mOk then none
  else
    let m : Nat := match s.2 with
      | none => dval s.1
      | some f => dval s.1 * 10 ^ f.length + dval f
    let fl : Nat := match s.2 with
      | none => 0
      | some f => f.length
    match se.2 with
    | none => some (.Dec m fl)
    | some ex =>
      let sg : Bool × List Nat := match ex with
        | 45 :: r => (true, r)
        | 43 :: r => (false, r)
        | r => (false, r)
      if sg.2 ≠ [] && sg.2.all isDigitB then
        let e := dval sg.2
        if sg.1 then some (.Dec m (fl + e))
        else if fl ≤ e then some (.Dec (m * 10 ^ (e - fl)) 0)
        else some (.Dec m (fl - e))
      else none

/-- `str::parse::<f32>` on the token's bytes: optional sign, then either
a special spelling (`inf`/`infinity`/`nan`, case-insensitive) or the
decimal core. -/
def parseFloat (t : Tok) : Option F32 :=
  let core : List Nat → Option F32 := fun body =>
    if eqCI body "inf" || eqCI body "infinity" then some (.Inf false)
    else if eqCI body "nan" then some .NaN
    else parseDecCore body
  match t with
  | 45 :: r => (core r).map F32.neg
  | 43 :: r => core r
  | r => core r

/-- `str::parse::<u8>`: optional `+`, digits, value ≤ 255. -/
def parseU8 (t : Tok) : Option Nat :=
  let body := match t with | 43 :: r => r | r => r
  if body ≠ [] && body.all isDigitB && dval body ≤ 255 then some (dval body) else none

/-- `float()` from parser.rs: `any().convert(str::parse)`. -/
def floatP : P F32 := pconvert pany parseFloat

/-- `u8()` from parser.rs: `any().convert(str::parse)`. -/
def u8P : P Nat := pconvert pany parseU8

/-- `ident()` from parser.rs: `is_a(|t| alphanum_dash(t.as_bytes()[0]))`. -/
def identP : P Tok := fun ts =>
  match ts with
  | t :: r => if alphanum_dash (t.headD 0) then .ok t r else .err
  | [] => .err

/-! ## Colors (`color()` in parser.rs) -/

/-- 4×8-bit RGBA color (`CssColor`). -/
structure CssColor where
  r : Nat
  g : Nat
  b : Nat
  a : Nat
  deriving DecidableEq, Repr

def CssColor.TRANSPARENT : CssColor := ⟨0, 0, 0, 0⟩
def CssColor.BLACK : CssColor := ⟨0, 0, 0, 255⟩
def CssColor.WHITE : CssColor := ⟨255, 255, 255, 255⟩
def CssColor.RED : CssColor := ⟨255, 0, 0, 255⟩
def CssColor.GREEN : CssColor := ⟨0, 255, 0, 255⟩
def CssColor.BLUE : CssColor := ⟨0, 0, 255, 255⟩

def CssColor.from_rgb8 (r g b : Nat) : CssColor := ⟨r, g, b, 255⟩

def CssColor.from_rgba8 (r g b a : Nat) : CssColor := ⟨r, g, b, a⟩

/-- Modelled from the spec: the `NAMED_COLORS` table lives in
`css/mod.rs`, which is not among the provided sources; the spec asks for
a case-sensitive exact-match named-color table and the in-repo tests pin
`transparent` and `black`.  A representative table. -/
def namedColor (t : Tok) : Option CssColor :=
  if t = s2b "transparent" then some .TRANSPARENT
  else if t = s2b "black" then some .BLACK
  else if t = s2b "white" then some .WHITE
  else if t = s2b "red" then some .RED
  else if t = s2b "green" then some .GREEN
  else if t = s2b "blue" then some .BLUE
  else none

/-- `(byte as char).to_digit(16)`. -/
def hexVal (b : Nat) : Option Nat :=
  if isDigitB b then some (b - 48)
  else if 97 ≤ b && b ≤ 102 then some (b - 87)
  else if 65 ≤ b && b ≤ 70 then some (b - 55)
  else none

/-- `u32::from_str_radix(s, 16)`: optional `+`, then a nonempty run of
hex digits (the 6- and 8-byte tokens reaching it can never overflow
`u32`). -/
def fromStrRadix16 (s : List Nat) : Option Nat :=
  let body := match s with | 43 :: r => r | r => r
  if body ≠ [] && body.all (fun b => (hexVal b).isSome) then
    some (body.foldl (fun a b => 16 * a + (hexVal b).getD 0) 0)
  else none

/-- Body of the `hex_color` `convert` closure: lengths 6/8 go through
`u32::from_str_radix(..).unwrap()` (a non-hex digit panics), lengths 3/4
through `hex_val` (`to_digit(16).unwrap()`, a non-hex digit panics) with
×17 nibble expansion, any other length is `Err("invalid hex color")`. -/
def hexColorBody (hex : Tok) : RustRes CssColor :=
  if hex.length = 8 || hex.length = 6 then
    match fromStrRadix16 hex with
    | none => .panicked
    | some n0 =>
      let num := if hex.length = 6 then n0 * 256 + 255 else n0
      .ok ⟨num / 2 ^ 24 % 256, num / 2 ^ 16 % 256, num / 2 ^ 8 % 256, num % 256⟩
  else if hex.length = 4 || hex.length = 3 then
    match hexVal (hex.getD 0 0), hexVal (hex.getD 1 0), hexVal (hex.getD 2 0) with
    | some r, some g, some b =>
      match hex.get? 3 with
      | some v =>
        match hexVal v with
        | some hv => .ok ⟨r * 17, g * 17, b * 17, hv * 17⟩
        | none => .panicked
      | none => .ok ⟨r * 17, g * 17, b * 17, 255⟩
    | _, _, _ => .panicked
  else .err

/-- Rust `as u8` cast of an `f32`: saturating truncation (for a positive
decimal, truncation toward zero is `num / 10 ^ exp` in `Nat`; `+inf`
saturates to 255, `-inf` and NaN go to 0). -/
def f32AsU8 (q : F32) : Nat :=
  match q with
  | .Dec n e => if n ≤ 0 then 0 else min 255 (n.toNat / 10 ^ e)
  | .Inf b => if b then 0 else 255
  | .NaN => 0

/-- `255. * a` on the modelled `f32`. -/
def mul255 (q : F32) : F32 :=
  match q with
  | .Dec n e => .Dec (255 * n) e
  | .Inf b => .Inf b
  | .NaN => .NaN

/-- `hex_color = sym("#") * any().convert(...)`. -/
def hexColorP : P CssColor := pright (psym (s2b "\x23")) (pconvertR pany hexColorBody)

/-- `rgb = sym("rgb") * sym("(") * (u8 - "," + u8 - "," + u8).map(from_rgb8) - sym(")")`. -/
def rgbP : P CssColor :=
  pleft
    (pmap (fun p => CssColor.from_rgb8 p.1.1 p.1.2 p.2)
      (pright (psym (s2b "rgb")) (pright (psym (s2b "("))
        (ppair (ppair (pleft u8P (psym (s2b ","))) (pleft u8P (psym (s2b ",")))) u8P))))
    (psym (s2b ")"))

/-- `rgba = ... (u8 -","+ u8 -","+ u8 -","+ float).map(from_rgba8(r,g,b,(255.*a) as _)) - ")"`. -/
def rgbaP : P CssColor :=
  pleft
    (pmap (fun p => CssColor.from_rgba8 p.1.1.1 p.1.1.2 p.1.2 (f32AsU8 (mul255 p.2)))
      (pright (psym (s2b "rgba")) (pright (psym (s2b "("))
        (ppair (ppair (ppair (pleft u8P (psym (s2b ","))) (pleft u8P (psym (s2b ","))))
          (pleft u8P (psym (s2b ",")))) floatP))))
    (psym (s2b ")"))

/-- `named_color = ident().convert(NAMED_COLORS lookup)`. -/
def namedColorP : P CssColor := pconvert identP namedColor

/-- `color() = hex_color | rgb | rgba | named_color`. -/
def color : P CssColor := palt (palt (palt hexColorP rgbP) rgbaP) namedColorP

/-! ## Dimensions and the other value parsers -/

/-- `CssDimension`.  Modelled from the in-repo tests (`css/mod.rs` is not
among the provided sources): `parse_dimension` asserts
`dimension().parse(&["0"]) == Ok(CssDimension::Px(0.))`, so `ZERO` is the
constant `Px(0.)`, not a separate variant. -/
inductive CssDimension
  | Auto
  | Px (v : F32)
  | Percent (v : F32)
  deriving DecidableEq, Repr

/-- `CssDimension::ZERO`. -/
def CssDimension.ZERO : CssDimension := .Px (f32 0)

/-- `dimension() = px | percent | auto | zero`. -/
def dimension : P CssDimension :=
  palt (palt (palt
    (pmap CssDimension.Px (pleft floatP (psym (s2b "px"))))
    (pmap CssDimension.Percent (pleft floatP (psym (s2b "%")))))
    (pmap (fun _ => CssDimension.Auto) (psym (s2b "auto"))))
    (pmap (fun _ => CssDimension.ZERO) (psym (s2b "0")))

/-- Modelled from the spec, for comparison with `CssDimension` (which
follows the in-src tests): the spec's words are "Dimension: tagged union
over { Pixels(f32), Percent(f32), Auto, Zero } — Zero is a distinct
literal form, not folded into Pixels(0)". -/
inductive CssDimensionSpec
  | Pixels (v : F32)
  | Percent (v : F32)
  | Auto
  | Zero
  deriving DecidableEq, Repr

/-- The dimension parser under the spec's reading: identical grammar,
but the bare `0` maps to the distinct `Zero` variant. -/
def dimensionSpec : P CssDimensionSpec :=
  palt (palt (palt
    (pmap CssDimensionSpec.Pixels (pleft floatP (psym (s2b "px"))))
    (pmap CssDimensionSpec.Percent (pleft floatP (psym (s2b "%")))))
    (pmap (fun _ => CssDimensionSpec.Auto) (psym (s2b "auto"))))
    (pmap (fun _ => CssDimensionSpec.Zero) (psym (s2b "0")))

/-- `CssOverflow` (names pinned by the `parse_overflow` test). -/
inductive CssOverflow
  | Visible
  | Hidden
  | Scroll
  | Auto
  deriving DecidableEq, Repr

/-- `CssOverflow::try_from` (exact case-sensitive names). -/
def overflowFrom (t : Tok) : Option CssOverflow :=
  if t = s2b "visible" then some .Visible
  else if t = s2b "hidden" then some .Hidden
  else if t = s2b "scroll" then some .Scroll
  else if t = s2b "auto" then some .Auto
  else none

/-- `try_from::<CssOverflow>() = ident().convert(TryFrom::try_from)`. -/
def overflowTryFromP : P CssOverflow := pconvert identP overflowFrom

/-- `list(parser, sep)` tail: `(sep * parser).repeat(0..)`, greedy. -/
def plistLoop {α : Type} (p : P α) (sep : Tok) : Nat → List α → List Tok → PR (List α)
  | 0, acc, ts => .ok acc.reverse ts
  | Nat.succ fuel, acc, ts =>
    match (pright (psym sep) p) ts with
    | .ok a r => plistLoop p sep fuel (a :: acc) r
    | .err => .ok acc.reverse ts
    | .panicked => .panicked

/-- pom `list(parser, sep) = parser + (sep * parser).repeat(0..)`. -/
def plist {α : Type} (p : P α) (sep : Tok) : P (List α) := fun ts =>
  match p ts with
  | .ok a r => plistLoop p sep (r.length + 1) [a] r
  | .err => .err
  | .panicked => .panicked

/-- `sides_of(parser)`: 1–4 space-separated values expanded to
`(top, right, bottom, left)`. -/
def sides_of {α : Type} (p : P α) : P (α × α × α × α) :=
  pconvert (plist p (s2b " ")) (fun sides =>
    match sides with
    | [a, b, c, d] => some (a, b, c, d)
    | [a, b, c] => some (a, b, c, b)
    | [a, b] => some (a, b, a, b)
    | [a] => some (a, a, a, a)
    | _ => none)

/-- `flex() = float + (" " * float).opt + (" " * dimension).opt`, defaults
`shrink = 1.0`, `basis = Auto`. -/
def flex : P (F32 × F32 × CssDimension) :=
  pmap (fun p => (p.1.1, p.1.2.getD (f32 1), p.2.getD CssDimension.Auto))
    (ppair (ppair floatP (popt (pright (psym (s2b " ")) floatP)))
      (popt (pright (psym (s2b " ")) dimension)))

/-- `overflow() = try_from + (" " * try_from).opt`, default `y = x`. -/
def overflow : P (CssOverflow × CssOverflow) :=
  pmap (fun p => (p.1, p.2.getD p.1))
    (ppair overflowTryFromP (popt (pright (psym (s2b " ")) overflowTryFromP)))

/-- `background() = sym("none") => TRANSPARENT | color()`. -/
def background : P CssColor :=
  palt (pmap (fun _ => CssColor.TRANSPARENT) (psym (s2b "none"))) color

/-! ## `Style` and the property / shorthand resolver

`StyleProp`, `Style` and the `prop_parser` / `shorthand_parser` tables
live in `css/mod.rs`, which is not among the provided sources.  They are
modelled from the spec (§3 Style, §4.4 resolver) and pinned by the
in-repo tests (`shorthands`, `parse_prop`): the longhand table maps one
name to one value parser, the shorthand table maps one name to an
expander emitting longhands in canonical identity, and `Style::add_prop`
presents last-write-wins per logical longhand (the `shorthands` test
asserts a single effective entry after an override). -/

/-- The resolved longhand properties the claims touch (one variant per
logical longhand). -/
inductive StyleProp
  | Color (c : CssColor)
  | BackgroundColor (c : CssColor)
  | PaddingTop (d : CssDimension)
  | PaddingRight (d : CssDimension)
  | PaddingBottom (d : CssDimension)
  | PaddingLeft (d : CssDimension)
  | MarginTop (d : CssDimension)
  | MarginRight (d : CssDimension)
  | MarginBottom (d : CssDimension)
  | MarginLeft (d : CssDimension)
  | FlexGrow (v : F32)
  | FlexShrink (v : F32)
  | FlexBasis (d : CssDimension)
  | OverflowX (o : CssOverflow)
  | OverflowY (o : CssOverflow)
  | Opacity (v : F32)
  deriving DecidableEq, Repr

/-- `std::mem::discriminant`: the logical-longhand identity of a prop. -/
def discrim : StyleProp → Nat
  | .Color _ => 0
  | .BackgroundColor _ => 1
  | .PaddingTop _ => 2
  | .PaddingRight _ => 3
  | .PaddingBottom _ => 4
  | .PaddingLeft _ => 5
  | .MarginTop _ => 6
  | .MarginRight _ => 7
  | .MarginBottom _ => 8
  | .MarginLeft _ => 9
  | .FlexGrow _ => 10
  | .FlexShrink _ => 11
  | .FlexBasis _ => 12
  | .OverflowX _ => 13
  | .OverflowY _ => 14
  | .Opacity _ => 15

/-- Modelled from the spec: an ordered sequence of resolved `StyleProp`s. -/
structure Style where
  props : List StyleProp
  deriving DecidableEq, Repr

/-- `Style::new()`. -/
def Style.new : Style := ⟨[]⟩

/-- Replace the first entry with the same discriminant, if any. -/
def replaceFirst (p : StyleProp) : List StyleProp → Option (List StyleProp)
  | [] => none
  | q :: rest =>
    if discrim q = discrim p then some (p :: rest)
    else (replaceFirst p rest).map (q :: ·)

/-- Modelled from the spec: `Style::add_prop` — overwrite the existing
entry for the same logical longhand in place, otherwise append ("at most
one *effective* value per logical longhand — a later entry for the same
longhand overrides an earlier one"). -/
def Style.add_prop (s : Style) (p : StyleProp) : Style :=
  match replaceFirst p s.props with
  | some l => ⟨l⟩
  | none => ⟨s.props ++ [p]⟩

/-- Modelled from the spec: the longhand table of `prop_parser`
(one-value-type-per-name; a fixed-arity parser, so the whole value slice
must be consumed).  Restricted to the names the claims and the in-repo
tests touch; unknown names have no entry. -/
def longhandTable (name : Tok) : Option (P StyleProp) :=
  if name = s2b "color" then some (pmap .Color color)
  else if name = s2b "background-color" then some (pmap .BackgroundColor color)
  else if name = s2b "padding-top" then some (pmap .PaddingTop dimension)
  else if name = s2b "padding-right" then some (pmap .PaddingRight dimension)
  else if name = s2b "padding-bottom" then some (pmap .PaddingBottom dimension)
  else if name = s2b "padding-left" then some (pmap .PaddingLeft dimension)
  else if name = s2b "margin-top" then some (pmap .MarginTop dimension)
  else if name = s2b "margin-right" then some (pmap .MarginRight dimension)
  else if name = s2b "margin-bottom" then some (pmap .MarginBottom dimension)
  else if name = s2b "margin-left" then some (pmap .MarginLeft dimension)
  else if name = s2b "opacity" then some (pmap .Opacity floatP)
  else none

/-- Modelled from the spec and the `shorthands` test: the shorthand table
of `shorthand_parser` — `name → expander emitting 1..N longhand
StyleProps in canonical identity`. -/
def shorthandTable (name : Tok) : Option (P (List StyleProp)) :=
  if name = s2b "padding" then
    some (pmap (fun s => [.PaddingTop s.1, .PaddingRight s.2.1,
      .PaddingBottom s.2.2.1, .PaddingLeft s.2.2.2]) (sides_of dimension))
  else if name = s2b "margin" then
    some (pmap (fun s => [.MarginTop s.1, .MarginRight s.2.1,
      .MarginBottom s.2.2.1, .MarginLeft s.2.2.2]) (sides_of dimension))
  else if name = s2b "flex" then
    some (pmap (fun f => [.FlexGrow f.1, .FlexShrink f.2.1, .FlexBasis f.2.2]) flex)
  else if name = s2b "overflow" then
    some (pmap (fun o => [.OverflowX o.1, .OverflowY o.2]) overflow)
  else if name = s2b "background" then
    some (pmap (fun c => [.BackgroundColor c]) background)
  else none

/-- `parse_prop_into(prop, value, style)`: first the longhand table, then
the shorthand table; a value-parse failure contributes nothing; a panic
inside a value parser propagates. -/
def parse_prop_into (prop : Tok) (value : List Tok) (style : Style) : RustRes Style :=
  let viaShorthand : RustRes Style :=
    match shorthandTable prop with
    | some p =>
      match runFull p value with
      | .ok ps => .ok (ps.foldl Style.add_prop style)
      | .err => .ok style
      | .panicked => .panicked
    | none => .ok style
  match longhandTable prop with
  | some p =>
    match runFull p value with
    | .ok pr => .ok (style.add_prop pr)
    | .err => viaShorthand
    | .panicked => .panicked
  | none => viaShorthand

/-- Modelled from the spec: `Style::set_property(prop, value)` — "parse a
single property name + pre-tokenized value slice into zero-or-more
StyleProp (used for incremental/inline style mutation)". -/
def Style.set_property (s : Style) (prop : String) (value : String) : RustRes Style :=
  parse_prop_into (s2b prop) (tokenize (s2b value)) s

/-! ## `style()` — declarations inside a rule -/

/-- `prop = any() - sym(":") + prop_value - sym(";").discard().repeat(0..)`
where `prop_value` is the (nonempty) run of tokens before `;` or `}`. -/
def propDecl : P (Tok × List Tok) := fun ts =>
  match ts with
  | name :: colon :: rest =>
    if colon = s2b ":" then
      let v := rest.takeWhile (fun t => t ≠ s2b ";" && t ≠ s2b "\x7d")
      if v = [] then .err
      else .ok (name, v) ((rest.dropWhile (fun t => t ≠ s2b ";" && t ≠ s2b "\x7d")).dropWhile
        (fun t => t = s2b ";"))
    else .err
  | _ => .err

/-- `prop.repeat(0..)` followed by the fold of `parse_prop_into` done in
`style()`'s `map` closure. -/
def styleLoop : Nat → Style → List Tok → PR Style
  | 0, st, ts => .ok st ts
  | Nat.succ fuel, st, ts =>
    match propDecl ts with
    | .ok (n, v) rest =>
      match parse_prop_into n v st with
      | .ok st' => styleLoop fuel st' rest
      | _ => .panicked
    | .err => .ok st ts
    | .panicked => .panicked

/-- `style()` from parser.rs. -/
def style : P Style := fun ts => styleLoop (ts.length + 1) Style.new ts

/-- Modelled from the spec: `Style::from(&str)` tokenizes and runs
`style()` (which only fails by panicking). -/
def Style.from (source : String) : RustRes Style :=
  match style (tokenize (s2b source)) with
  | .ok st _ => .ok st
  | .err => .err
  | .panicked => .panicked

/-! ## Selectors (`selector()` in parser.rs) -/

/-- `Combinator`. -/
inductive Combinator
  | Parent
  | Ancestor
  | Or
  | Universal
  deriving DecidableEq, Repr

/-- `Component` (names are `Atom`s, i.e. interned strings — here the
token bytes). -/
inductive Component
  | LocalName (n : Tok)
  | Identifier (n : Tok)
  | ClassName (n : Tok)
  | Unsupported
  deriving DecidableEq, Repr

/-- `SelectorPart`. -/
inductive SelectorPart
  | Combinator (c : Combinator)
  | Component (c : Component)
  deriving DecidableEq, Repr

/-- `Selector`. -/
structure Selector where
  parts : List SelectorPart
  deriving DecidableEq, Repr

/-- `tag()` inside `selector()`:
`universal | (id | class_name | local_name | attr | pseudo)`. -/
def tagP : P SelectorPart := fun ts =>
  match ts with
  | [] => .err
  | t :: rest =>
    if t = s2b "*" then .ok (.Combinator .Universal) rest
    else if t = s2b "\x23" then
      match identP rest with
      | .ok n r => .ok (.Component (.Identifier n)) r
      | _ => .err
    else if t = s2b "." then
      match identP rest with
      | .ok n r => .ok (.Component (.ClassName n)) r
      | _ => .err
    else if alphanum_dash (t.headD 0) then .ok (.Component (.LocalName t)) rest
    else if t = s2b "[" then
      let sk := rest.takeWhile (fun x => x ≠ s2b "]")
      if sk = [] then .err
      else
        match rest.dropWhile (fun x => x ≠ s2b "]") with
        | x :: r => if x = s2b "]" then .ok (.Component .Unsupported) r else .err
        | [] => .err
    else if t = s2b ":" then
      let rest2 := if rest.headD [] = s2b ":" then rest.tail else rest
      match identP rest2 with
      | .ok _ r => .ok (.Component .Unsupported) r
      | _ => .err
    else .err

/-- `comb = (child | descendant | or).map(Combinator) | unsupported`. -/
def combP : P SelectorPart := fun ts =>
  match ts with
  | [] => .err
  | t :: rest =>
    if t = s2b ">" then .ok (.Combinator .Parent) rest
    else if t = [32] then .ok (.Combinator .Ancestor) rest
    else if t = s2b "," then .ok (.Combinator .Or) rest
    else if t = s2b "+" || t = s2b "~" then .ok (.Component .Unsupported) rest
    else .err

/-- `(comb.opt() + tag()).repeat(0..)`, greedy with per-item backtracking.
No selector sub-parser contains a panicking closure, so the `panicked`
case is unreachable and simply stops the repetition. -/
def selTailLoop : Nat → List (Option SelectorPart × SelectorPart) → List Tok →
    List (Option SelectorPart × SelectorPart) × List Tok
  | 0, acc, ts => (acc.reverse, ts)
  | Nat.succ fuel, acc, ts =>
    match (ppair (popt combP) tagP) ts with
    | .ok ct r => selTailLoop fuel (ct :: acc) r
    | .err => (acc.reverse, ts)
    | .panicked => (acc.reverse, ts)

/-- The final `map` of `selector()`: push the tail pairs in reverse
(child/descendant flipped to parent/ancestor), each tag before its
combinator, then the head tag. -/
def buildParts (head : SelectorPart)
    (tail : List (Option SelectorPart × SelectorPart)) : List SelectorPart :=
  (tail.reverse.foldl (fun acc ct =>
    acc ++ [ct.2] ++ (match ct.1 with | some c => [c] | none => [])) []) ++ [head]

/-- `selector() = tag() + (comb.opt() + tag()).repeat(0..)`, mapped
through `buildParts`. -/
def selector : P Selector := fun ts =>
  match tagP ts with
  | .ok head r =>
    let tl := selTailLoop (r.length + 1) [] r
    .ok ⟨buildParts head tl.1⟩ tl.2
  | .err => .err
  | .panicked => .panicked

/-- Modelled from the in-repo `parse_selector` tests (`css/mod.rs` is not
among the provided sources): `Selector::from(&str)` tokenizes, requires a
full-input parse, and falls back to a single `Unsupported` component
(`s("") == [Component(Unsupported)]`, `s("a,,b") == [Component(Unsupported)]`). -/
def Selector.from (source : String) : Selector :=
  match selector (tokenize (s2b source)) with
  | .ok sel [] => sel
  | _ => ⟨[.Component .Unsupported]⟩

/-! ## Rules and stylesheets (`rule()` / `sheet()` in parser.rs) -/

/-- `Rule { selector, style }`. -/
structure Rule where
  selector : Selector
  style : Style
  deriving DecidableEq, Repr

/-- `rule() = selector() - sym("{") + style() - sym("}")`. -/
def rule : P Rule := fun ts =>
  match selector ts with
  | .ok sel r =>
    match r with
    | b :: r2 =>
      if b = s2b "\x7b" then
        match style r2 with
        | .ok st r3 =>
          match r3 with
          | c :: r4 => if c = s2b "\x7d" then .ok ⟨sel, st⟩ r4 else .err
          | [] => .err
        | .err => .err
        | .panicked => .panicked
      else .err
    | [] => .err
  | .err => .err
  | .panicked => .panicked

/-- Does the token stream start with `"}" "}"` (the `seq(&["}", "}"])`
test of the `media` rule)? -/
def isRBB : List Tok → Bool
  | a :: b :: _ => a = s2b "\x7d" && b = s2b "\x7d"
  | _ => false

/-- Skip forward to the first position where `"}" "}"` starts. -/
def skipToRBB : List Tok → Option (List Tok)
  | [] => none
  | t :: rest => if isRBB (t :: rest) then some (t :: rest) else skipToRBB rest

/-- `media = sym("@") * sym("media") * (!seq(["}","}"]) * skip(1)).repeat(1..)
- sym("}") - sym("}")`: at least one token is skipped, then the double
closing brace is consumed. -/
def media : P (Option Rule) := fun ts =>
  match ts with
  | a :: m :: rest =>
    if a = s2b "@" && m = s2b "media" then
      match rest with
      | [] => .err
      | t :: r =>
        if isRBB (t :: r) then .err
        else
          match skipToRBB r with
          | some (_ :: _ :: r2) => .ok none r2
          | _ => .err
    else .err
  | _ => .err

/-- `unknown = (!sym("}") * skip(1)).repeat(1..) - sym("}").opt()`: at
least one non-`}` token, then an optional `}`. -/
def unknown : P (Option Rule) := fun ts =>
  match ts with
  | [] => .err
  | t :: rest =>
    if t = s2b "\x7d" then .err
    else
      match (t :: rest).dropWhile (fun x => x ≠ s2b "\x7d") with
      | _ :: r2 => .ok none r2
      | [] => .ok none []

/-- One `sheet()` alternative: `rule().map(Some) | media | unknown`. -/
def sheetAlt : P (Option Rule) := palt (palt (pmap some rule) media) unknown

/-- `(rule | media | unknown).repeat(0..)`, greedy; every successful
alternative consumes at least one token. -/
def sheetLoop : Nat → List Rule → List Tok → PR (List Rule)
  | 0, acc, ts => .ok acc.reverse ts
  | Nat.succ fuel, acc, ts =>
    match sheetAlt ts with
    | .ok (some ru) r => sheetLoop fuel (ru :: acc) r
    | .ok none r => sheetLoop fuel acc r
    | .err => .ok acc.reverse ts
    | .panicked => .panicked

/-- `StyleSheet { rules }`. -/
structure StyleSheet where
  rules : List Rule
  deriving DecidableEq, Repr

/-- `sheet()` from parser.rs: the repetition with `None`s flattened away. -/
def sheet : P StyleSheet := fun ts =>
  match sheetLoop (ts.length + 1) [] ts with
  | .ok rs r => .ok ⟨rs⟩ r
  | .err => .err
  | .panicked => .panicked

/-- Modelled from the spec: `StyleSheet::from(&str)` tokenizes and runs
`sheet()` (whose repetition itself never fails; only a panic escapes). -/
def StyleSheet.from (source : String) : RustRes StyleSheet :=
  match sheet (tokenize (s2b source)) with
  | .ok sh _ => .ok sh
  | .err => .err
  | .panicked => .panicked

/-- Number of rules of a successfully parsed sheet. -/
def rulesLen : RustRes StyleSheet → Option Nat
  | .ok sh => some sh.rules.length
  | _ => none

/-! ## Document tree (document.rs)

`Document` wraps an `IdTree` (from `crate::util`, not among the provided
sources — modelled from the spec §3: an arena of slots holding the node
payload, an optional parent and an ordered child list, indexed by
`NodeId`) and a change listener.  The listener is a closure invoked
synchronously by `emit`; its invocations during one call are modelled as
the ordered list of events the call returns.  A mutation on an invalid
handle or `el_mut()` on a text payload is a Rust panic / contract
violation, modelled as `none`. -/

abbrev NodeId := Nat

/-- `DocumentEvent`. -/
inductive DocumentEvent
  | ParentChanged (n : NodeId)
  | NodeDestroyed (n : NodeId)
  | TextNodeCreated (n : NodeId)
  | TextChanged (n : NodeId)
  | ElementCreated (n : NodeId)
  | AttributesChanged (n : NodeId)
  | NodeInserted (parent : NodeId) (child : NodeId) (index : Nat)
  | NodeRemoved (parent : NodeId) (child : NodeId)
  deriving DecidableEq, Repr

/-- `ElementData`; the `HashMap<String, String>` is modelled as an
association list with unique keys (insert replaces, remove deletes). -/
structure ElementData where
  local_name : String
  attributes : List (String × String)
  deriving DecidableEq, Repr

/-- `NodeData`. -/
inductive NodeData
  | Element (data : ElementData)
  | Text (s : String)
  deriving DecidableEq, Repr

/-- `NodeData::el()`: `none` models the `panic!("not an element")`. -/
def NodeData.el : NodeData → Option ElementData
  | .Element d => some d
  | .Text _ => none

/-- `NodeData::text()`: `none` models the `panic!("not a text node")`. -/
def NodeData.text : NodeData → Option String
  | .Text s => some s
  | .Element _ => none

/-- Modelled from the spec: one arena slot — payload, at most one parent,
ordered children ("held exclusively by the arena"). -/
structure Slot where
  data : NodeData
  parent : Option NodeId
  children : List NodeId
  deriving DecidableEq, Repr

/-- Modelled from the spec: `IdTree` — a handle-indexed storage pool;
`none` slots are freed (reusable) slots.  Slot-reuse policy is not needed
by any claim, so `create_node` always appends. -/
structure IdTree where
  slots : List (Option Slot)
  deriving DecidableEq, Repr

/-- The payload of a node (`tree.data(node)`); `none` = invalid handle. -/
def IdTree.dataOf (t : IdTree) (n : NodeId) : Option NodeData :=
  match t.slots[n]? with
  | some (some s) => some s.data
  | _ => none

/-- The live slot of a node, if any. -/
def IdTree.slotOf (t : IdTree) (n : NodeId) : Option Slot :=
  match t.slots[n]? with
  | some (some s) => some s
  | _ => none

/-- Write back the slot of a live node. -/
def IdTree.setSlot (t : IdTree) (n : NodeId) (s : Slot) : IdTree :=
  ⟨t.slots.set n (some s)⟩

/-- `tree.create_node(data)`: fresh id, no parent, no children. -/
def IdTree.create_node (t : IdTree) (data : NodeData) : NodeId × IdTree :=
  (t.slots.length, ⟨t.slots ++ [some ⟨data, none, []⟩]⟩)

/-- `tree.insert_child(parent, child, index)`: insert into the ordered
child list at `index` (`Vec::insert` panics when `index > len`), set the
child's parent. -/
def IdTree.insert_child (t : IdTree) (parent child : NodeId) (index : Nat) :
    Option IdTree :=
  match t.slotOf parent, t.slotOf child with
  | some ps, some cs =>
    if index ≤ ps.children.length then
      some (((t.setSlot parent { ps with children := ps.children.insertIdx index child })).setSlot
        child { cs with parent := some parent })
    else none
  | _, _ => none

/-- `tree.remove_child(parent, child)`: detach from the child list, clear
the child's parent. -/
def IdTree.remove_child (t : IdTree) (parent child : NodeId) : Option IdTree :=
  match t.slotOf parent, t.slotOf child with
  | some ps, some cs =>
    some (((t.setSlot parent { ps with children := ps.children.erase child })).setSlot
      child { cs with parent := none })
  | _, _ => none

/-- `tree.free_node(node)`: the slot becomes reusable. -/
def IdTree.free_node (t : IdTree) (n : NodeId) : Option IdTree :=
  match t.slotOf n with
  | some _ => some ⟨t.slots.set n none⟩
  | none => none

/-- `Document { tree, root }`; the listener is modelled by returning the
events each call emits, in emission order. -/
structure Document where
  tree : IdTree
  root : NodeId
  deriving DecidableEq, Repr

/-- `Document::new(listener)`: a `:root` element node, one creation
event. -/
def Document.new : Document × List DocumentEvent :=
  let c := IdTree.create_node ⟨[]⟩ (.Element ⟨":root", []⟩)
  (⟨c.2, c.1⟩, [.ElementCreated c.1])

/-- `document.is_element(node)`. -/
def Document.is_element (d : Document) (n : NodeId) : Bool :=
  match d.tree.dataOf n with
  | some (.Element _) => true
  | _ => false

/-- `document.is_text(node)`. -/
def Document.is_text (d : Document) (n : NodeId) : Bool :=
  match d.tree.dataOf n with
  | some (.Text _) => true
  | _ => false

/-- `document.parent(node)`. -/
def Document.parent (d : Document) (n : NodeId) : Option NodeId :=
  (d.tree.slotOf n).bind Slot.parent

/-- `document.children(node)` (as a list). -/
def Document.children (d : Document) (n : NodeId) : List NodeId :=
  ((d.tree.slotOf n).map Slot.children).getD []

/-- `document.insert_child(parent, child, index)`: tree mutation, then
`NodeInserted` and `ParentChanged`, in that order. -/
def Document.insert_child (d : Document) (parent child : NodeId) (index : Nat) :
    Option (Document × List DocumentEvent) :=
  (d.tree.insert_child parent child index).map fun t =>
    (⟨t, d.root⟩, [.NodeInserted parent child index, .ParentChanged child])

/-- `document.remove_child(parent, child)`: tree mutation, then
`NodeRemoved` and `ParentChanged`, in that order. -/
def Document.remove_child (d : Document) (parent child : NodeId) :
    Option (Document × List DocumentEvent) :=
  (d.tree.remove_child parent child).map fun t =>
    (⟨t, d.root⟩, [.NodeRemoved parent child, .ParentChanged child])

/-- `document.free_node(node)`. -/
def Document.free_node (d : Document) (n : NodeId) :
    Option (Document × List DocumentEvent) :=
  (d.tree.free_node n).map fun t => (⟨t, d.root⟩, [.NodeDestroyed n])

/-- `document.create_text_node(text)`. -/
def Document.create_text_node (d : Document) (text : String) :
    Document × NodeId × List DocumentEvent :=
  let c := d.tree.create_node (.Text text)
  (⟨c.2, d.root⟩, c.1, [.TextNodeCreated c.1])

/-- `document.create_element(local_name)`. -/
def Document.create_element (d : Document) (local_name : String) :
    Document × NodeId × List DocumentEvent :=
  let c := d.tree.create_node (.Element ⟨local_name, []⟩)
  (⟨c.2, d.root⟩, c.1, [.ElementCreated c.1])

/-- `document.text(text_node)`: `tree.data(node).text()` — `none` models
both the invalid handle and the wrong-variant panic. -/
def Document.text (d : Document) (n : NodeId) : Option String :=
  (d.tree.dataOf n).bind NodeData.text

/-- `document.local_name(element)`. -/
def Document.local_name (d : Document) (n : NodeId) : Option String :=
  ((d.tree.dataOf n).bind NodeData.el).map ElementData.local_name

/-- Association-list lookup (`HashMap::get`). -/
def lookupA (attrs : List (String × String)) (k : String) : Option String :=
  match attrs with
  | [] => none
  | (a, v) :: rest => if a = k then some v else lookupA rest k

/-- `document.set_text(text_node, text)`: `*self.tree.data_mut(text_node)
= NodeData::Text(..)` — the whole payload is overwritten with no variant
check, then `TextChanged` is emitted. -/
def Document.set_text (d : Document) (n : NodeId) (text : String) :
    Option (Document × List DocumentEvent) :=
  (d.tree.slotOf n).map fun s =>
    (⟨d.tree.setSlot n { s with data := .Text text }, d.root⟩, [.TextChanged n])

/-- `document.attribute(element, att_name)`. -/
def Document.attribute (d : Document) (n : NodeId) (k : String) : Option String :=
  match (d.tree.dataOf n).bind NodeData.el with
  | some ed => lookupA ed.attributes k
  | none => none

/-- `HashMap::insert`: replace the entry for the key or add one. -/
def insertA (attrs : List (String × String)) (k v : String) :
    List (String × String) :=
  match attrs with
  | [] => [(k, v)]
  | (a, w) :: rest => if a = k then (k, v) :: rest else (a, w) :: insertA rest k v

/-- `document.set_attribute(element, att_name, value)`: `el_mut()` panics
on a text payload (`none`); emits `AttributesChanged`. -/
def Document.set_attribute (d : Document) (n : NodeId) (k v : String) :
    Option (Document × List DocumentEvent) :=
  match d.tree.slotOf n with
  | some s =>
    match s.data with
    | .Element ed =>
      some (⟨d.tree.setSlot n
        { s with data := .Element { ed with attributes := insertA ed.attributes k v } },
          d.root⟩, [.AttributesChanged n])
    | .Text _ => none
  | none => none

/-- `document.remove_attribute(element, att_name)`: `el_mut()` panics on
a text payload; removes the key if present; emits `AttributesChanged`
unconditionally. -/
def Document.remove_attribute (d : Document) (n : NodeId) (k : String) :
    Option (Document × List DocumentEvent) :=
  match d.tree.slotOf n with
  | some s =>
    match s.data with
    | .Element ed =>
      let na := ed.attributes.filter (fun p => !(p.1 == k))
      some (⟨d.tree.setSlot n
        { s with data := .Element { ed with attributes := na } }, d.root⟩,
          [.AttributesChanged n])
    | .Text _ => none
  | none => none

/-! ## Helper predicates used by the claim theorems -/

/-- Is a parse outcome the recoverable-error outcome? -/
def PR.isErr {α : Type} : PR α → Bool
  | .err => true
  | _ => false

/-- Does the pushed token just before a space (if the space is first,
`none`) allow the space to be kept? -/
def prevOkB : Option Tok → Bool
  | some p => keepClass p
  | none => false

/-- Every space token in the list is immediately preceded by a pushed
token of the keep class (`identifier`, `*`, `]`); `prev` is the token
before the list's head. -/
def noBadSpaceB : Option Tok → List Tok → Bool
  | _, [] => true
  | prev, t :: rest =>
    (if t = [32] then prevOkB prev else true) && noBadSpaceB (some t) rest

/-- Every space token is followed by a token of the start class
(`identifier-start`, `.`, `#`, `*`) — a trailing space is allowed. -/
def spacesFollowedB : List Tok → Bool
  | [] => true
  | [_] => true
  | t :: next :: rest =>
    (if t = [32] then startClass next else true) && spacesFollowedB (next :: rest)

/-- As `spacesFollowedB`, but a trailing space is a violation (the
two-sided rule exactly as the claim states it). -/
def spacesFollowedStrictB : List Tok → Bool
  | [] => true
  | [t] => !(t == [32])
  | t :: next :: rest =>
    (if t = [32] then startClass next else true) && spacesFollowedStrictB (next :: rest)

/-- A concrete document used to instantiate the document-tree theorems:
a `:root` element, one detached `div` element with one attribute, one
detached text node. -/
def docW : Document :=
  ⟨⟨[some ⟨.Element ⟨":root", []⟩, none, []⟩,
     some ⟨.Element ⟨"div", [("id", "x")]⟩, none, []⟩,
     some ⟨.Text "hi", none, []⟩]⟩, 0⟩

end Graffiti

namespace Graffiti

/-! ## Supporting lemmas -/

/-- `sheet()`'s repetition never produces a recoverable error: it either
succeeds (possibly consuming nothing) or a panic from a value parser
escapes. -/
lemma sheetLoop_ne_err (fuel : Nat) : ∀ acc ts, (sheetLoop fuel acc ts).isErr = false := by
  induction fuel with
  | zero => intro acc ts; rfl
  | succ n ih =>
    intro acc ts
    simp only [sheetLoop]
    cases h : sheetAlt ts with
    | ok v r => cases v <;> simp only [ih]
    | err => rfl
    | panicked => rfl

/-- The subject-first order produced by `selector()`'s final `map`: the
stored parts are exactly the reverse of the source-order sequence
`head, comb₁, tag₁, comb₂, tag₂, …`. -/
lemma buildParts_eq_reverse (head : SelectorPart)
    (tail : List (Option SelectorPart × SelectorPart)) :
    buildParts head tail
      = (head :: tail.flatMap (fun ct => ct.1.toList ++ [ct.2])).reverse := by
  have aux : ∀ (l : List (Option SelectorPart × SelectorPart)) (acc : List SelectorPart),
      l.reverse.foldl (fun acc ct =>
          acc ++ [ct.2] ++ (match ct.1 with | some c => [c] | none => [])) acc
        = acc ++ (l.flatMap (fun ct => ct.1.toList ++ [ct.2])).reverse := by
    intro l
    induction l with
    | nil => intro acc; simp
    | cons x xs ih =>
      intro acc
      rw [List.reverse_cons, List.foldl_append, List.foldl_cons, List.foldl_nil, ih,
        List.flatMap_cons, List.reverse_append]
      cases hx : x.1 with
      | none => simp [hx, List.append_assoc]
      | some c => simp [hx, List.append_assoc]
  simp only [buildParts, aux, List.nil_append, List.reverse_cons]

end Graffiti

namespace Graffiti

/-! ## Claim theorems -/

/-- A kept space can only be followed (per `startClass`) by a non-space
token. -/
lemma startClass_ne_space {n : Tok} (h : startClass n = true) : n ≠ [32] := by
  intro he
  rw [he] at h
  exact absurd h (by decide)

/-- Unfolding of `spacesFollowedB` at a cons cell. -/
lemma spacesFollowedB_cons (a : Tok) (X : List Tok) :
    spacesFollowedB (a :: X)
      = ((match X with
          | [] => true
          | n :: _ => if a = [32] then startClass n else true) && spacesFollowedB X) := by
  cases X <;> simp [spacesFollowedB]

/-- The filtering pass only keeps a space whose preceding pushed token is
in the keep class. -/
lemma noBadSpaceB_stripSpaces :
    ∀ (ts : List Tok) (ks : Bool) (prev : Option Tok),
      (ks = true → prevOkB prev = true) → noBadSpaceB prev (stripSpaces ks ts) = true := by
  intro ts
  induction ts with
  | nil => intro ks prev _; cases ks <;> rfl
  | cons t rest ih =>
    intro ks prev hkp
    by_cases ht : t = [32]
    · subst ht
      cases ks with
      | false =>
        rw [show stripSpaces false ([32] :: rest) = stripSpaces false rest from by
          simp [stripSpaces]]
        exact ih false prev hkp
      | true =>
        cases rest with
        | nil =>
          rw [show stripSpaces true [[32]] = [[32]] from by simp [stripSpaces]]
          simp [noBadSpaceB, hkp rfl]
        | cons next r2 =>
          by_cases hs : startClass next = true
          · rw [show stripSpaces true ([32] :: next :: r2)
                = [32] :: stripSpaces (keepClass [32]) (next :: r2) from by
              simp [stripSpaces, hs]]
            simp only [noBadSpaceB, if_pos rfl, hkp rfl, Bool.true_and]
            exact ih (keepClass [32]) (some [32]) (by intro hk; exact absurd hk (by decide))
          · rw [show stripSpaces true ([32] :: next :: r2)
                = stripSpaces true (next :: r2) from by
              simp [stripSpaces, hs]]
            exact ih true prev hkp
    · rw [show stripSpaces ks (t :: rest) = t :: stripSpaces (keepClass t) rest from by
        simp [stripSpaces, ht]]
      simp only [noBadSpaceB, if_neg ht, Bool.true_and]
      exact ih (keepClass t) (some t) (by intro hk; simpa [prevOkB] using hk)

/-- The filtering pass only keeps a space whose following output token
(if any) is in the start class. -/
lemma spacesFollowedB_stripSpaces :
    ∀ (ts : List Tok) (ks : Bool), spacesFollowedB (stripSpaces ks ts) = true := by
  intro ts
  induction ts with
  | nil => intro ks; cases ks <;> rfl
  | cons t rest ih =>
    intro ks
    by_cases ht : t = [32]
    · subst ht
      cases ks with
      | false =>
        rw [show stripSpaces false ([32] :: rest) = stripSpaces false rest from by
          simp [stripSpaces]]
        exact ih false
      | true =>
        cases rest with
        | nil =>
          rw [show stripSpaces true [[32]] = [[32]] from by simp [stripSpaces]]
          rfl
        | cons next r2 =>
          by_cases hs : startClass next = true
          · rw [show stripSpaces true ([32] :: next :: r2)
                = [32] :: stripSpaces (keepClass [32]) (next :: r2) from by
              simp [stripSpaces, hs]]
            have hne : next ≠ [32] := startClass_ne_space hs
            have hrest : stripSpaces (keepClass [32]) (next :: r2)
                = next :: stripSpaces (keepClass next) r2 := by
              simp [stripSpaces, hne]
            rw [hrest]
            simp only [spacesFollowedB, if_pos rfl, hs, Bool.true_and]
            rw [← hrest]
            exact ih (keepClass [32])
          · rw [show stripSpaces true ([32] :: next :: r2)
                = stripSpaces true (next :: r2) from by
              simp [stripSpaces, hs]]
            exact ih true
    · rw [show stripSpaces ks (t :: rest) = t :: stripSpaces (keepClass t) rest from by
        simp [stripSpaces, ht]]
      rw [spacesFollowedB_cons]
      cases hX : stripSpaces (keepClass t) rest with
      | nil => simp [spacesFollowedB]
      | cons n l =>
        simp only [if_neg ht, Bool.true_and]
        rw [← hX]
        exact ih (keepClass t)

/-- C4 counterexample: `tokenize "a "` keeps the trailing space — a space
token appears in the output with *no* following token at all, refuting
the claim's requirement that the token immediately after a kept space
must start with an identifier character, `.`, `#` or `*`. -/
theorem C4_counterexample :
    tokenize (s2b "a ") = [s2b "a", s2b " "]
    ∧ spacesFollowedStrictB (tokenize (s2b "a ")) = false := by decide

/-- C4 (amended): in `tokenize`'s whitespace-filtering pass, a space
appears in the output only if the pushed token immediately before it is
an identifier, `*` or `]`, and — when any token follows it — only if that
token starts with an identifier character, `.`, `#` or `*`; a trailing
space after a keep-class token is kept, not removed. -/
theorem C4_space_filter (input : List Nat) :
    noBadSpaceB none (tokenize input) = true
    ∧ spacesFollowedB (tokenize input) = true := by
  constructor
  · exact noBadSpaceB_stripSpaces _ false none (by intro h; exact absurd h (by decide))
  · exact spacesFollowedB_stripSpaces _ false

/-- C5 counterexample: input bytes *are* silently dropped on non-UTF-8
input.  In `b"a\xC3\xA9b"` (`"aéb"`) the byte `0xC3` reaches the
single-character fallback, the resulting one-byte span fails
`token.convert(std::str::from_utf8)` (parser.rs:270), and the repetition
stops: the output is just `["a"]` — the bytes `0xC3 0xA9 0x62` produce
no token at all, refuting "every unrecognized byte falls back to a
single-character token (no input bytes are silently dropped)". -/
theorem C5_counterexample : tokenize [97, 195, 169, 98] = [[97]] := by decide

/-- C5 (amended): the tokenizer is total and deterministic over
arbitrary byte input and never panics (the repetition simply stops);
on any byte *below 0x80* that no specific rule recognizes (not
whitespace, not in an identifier/number run, not a quote, and not
hash-guarded), the raw pass falls back to a single-character token whose
span is valid UTF-8, so it is emitted and nothing is dropped; a token
span that is not valid UTF-8 instead fails the `str::from_utf8`
conversion, which ends tokenization and silently drops that span and all
later input; and inputs differing only by extra whitespace or comments
collapse to the same token sequence (`"a   b"` and `"a/**/ b"` both
tokenize like `"a b"`). -/
theorem C5_tokenizer_total (prev : Option Nat) (b : Nat) (rest : List Nat)
    (h0 : b < 128)
    (h1 : isSpaceB b = false) (h2 : alphanum_dash b = false) (h3 : isNumB b = false)
    (h4 : b ≠ 39) (h5 : b ≠ 34) :
    tokenAlt prev (b :: rest) = some ([b], b, rest)
    ∧ isValidUtf8 [b] = true
    ∧ tokenize (s2b "a   b") = [s2b "a", s2b " ", s2b "b"]
    ∧ tokenize (s2b "a/**/ b") = [s2b "a", s2b " ", s2b "b"]
    ∧ tokenize (s2b "a b") = [s2b "a", s2b " ", s2b "b"] := by
  refine ⟨?_, ?_, by decide, by decide, by decide⟩
  · have halnum : alphanumB b = false := by
      revert h2; unfold alphanum_dash; cases alphanumB b <;> simp
    have h45 : ¬ b = 45 := by
      intro he; subst he; exact absurd h2 (by decide)
    simp [tokenAlt, h1, h2, h3, h4, h5, halnum, h45, beq_iff_eq]
  · have hall : ∀ c, c < 128 → isValidUtf8 [c] = true := by decide
    exact hall b h0

/-- C5 witness: the theorem applied at the byte `{` (123) with empty
rest. -/
theorem C5_witness :
    123 < 128
    ∧ isSpaceB 123 = false ∧ alphanum_dash 123 = false ∧ isNumB 123 = false
    ∧ tokenAlt none [123] = some ([123], 123, [])
    ∧ isValidUtf8 [123] = true
    ∧ tokenize (s2b "a   b") = [s2b "a", s2b " ", s2b "b"]
    ∧ tokenize (s2b "a/**/ b") = [s2b "a", s2b " ", s2b "b"]
    ∧ tokenize (s2b "a b") = [s2b "a", s2b " ", s2b "b"] := by
  have h := C5_tokenizer_total none 123 [] (by decide) (by decide) (by decide)
    (by decide) (by decide) (by decide)
  exact ⟨by decide, by decide, by decide, by decide, h.1, h.2.1, h.2.2.1, h.2.2.2.1,
    h.2.2.2.2⟩

/-- Replacing a prop in place preserves the discriminant sequence. -/
lemma replaceFirst_map_discrim :
    ∀ (l : List StyleProp) (p : StyleProp) (l' : List StyleProp),
      replaceFirst p l = some l' → l'.map discrim = l.map discrim := by
  intro l
  induction l with
  | nil => intro p l' h; cases h
  | cons q rest ih =>
    intro p l' h
    by_cases hd : discrim q = discrim p
    · rw [replaceFirst, if_pos hd] at h
      cases h
      simp [hd]
    · rw [replaceFirst, if_neg hd] at h
      cases hr : replaceFirst p rest with
      | none => rw [hr] at h; cases h
      | some r' =>
        rw [hr] at h
        cases h
        simp [ih p r' hr]

/-- When no entry was replaced, no existing prop shares the new prop's
discriminant. -/
lemma replaceFirst_none :
    ∀ (l : List StyleProp) (p : StyleProp), replaceFirst p l = none →
      ∀ q ∈ l, discrim q ≠ discrim p := by
  intro l
  induction l with
  | nil => intro p _ q hq; cases hq
  | cons a rest ih =>
    intro p h q hq
    by_cases hd : discrim a = discrim p
    · rw [replaceFirst, if_pos hd] at h; cases h
    · rw [replaceFirst, if_neg hd] at h
      cases hr : replaceFirst p rest with
      | some r' => rw [hr] at h; cases h
      | none =>
        rcases List.mem_cons.mp hq with rfl | hq
        · exact hd
        · exact ih p hr q hq

/-- `Style::add_prop` preserves "at most one entry per logical
longhand". -/
lemma add_prop_nodup (s : Style) (p : StyleProp)
    (h : (s.props.map discrim).Nodup) :
    (((s.add_prop p).props).map discrim).Nodup := by
  unfold Style.add_prop
  cases hr : replaceFirst p s.props with
  | some l => simpa [replaceFirst_map_discrim s.props p l hr] using h
  | none =>
    simp only
    rw [List.map_append]
    refine List.Nodup.append h (by simp) ?_
    intro x hx hx'
    simp only [List.map_cons, List.map_nil, List.mem_singleton] at hx'
    subst hx'
    rcases List.mem_map.mp hx with ⟨q, hq, hqd⟩
    exact replaceFirst_none s.props p hr q hq hqd

/-- Folding a shorthand expansion through `add_prop` preserves the
invariant. -/
lemma foldl_add_prop_nodup :
    ∀ (ps : List StyleProp) (s : Style), (s.props.map discrim).Nodup →
      (((ps.foldl Style.add_prop s).props).map discrim).Nodup := by
  intro ps
  induction ps with
  | nil => intro s h; exact h
  | cons p rest ih => intro s h; exact ih _ (add_prop_nodup s p h)

/-- `parse_prop_into` preserves "at most one entry per logical longhand",
whether the name resolves through the longhand or the shorthand table. -/
lemma parse_prop_into_nodup (prop : Tok) (value : List Tok) (st st' : Style)
    (h2 : parse_prop_into prop value st = .ok st')
    (h : (st.props.map discrim).Nodup) : (st'.props.map discrim).Nodup := by
  simp only [parse_prop_into] at h2
  split at h2
  · split at h2
    · cases h2; exact add_prop_nodup _ _ h
    · split at h2
      · split at h2
        · cases h2; exact foldl_add_prop_nodup _ _ h
        · cases h2; exact h
        · cases h2
      · cases h2; exact h
    · cases h2
  · split at h2
    · split at h2
      · cases h2; exact foldl_add_prop_nodup _ _ h
      · cases h2; exact h
      · cases h2
    · cases h2; exact h

/-- C1: adding props through `parse_prop_into` / `set_property` keeps at
most one effective entry per logical longhand, and overriding works
across shorthand and longhand interchangeably: `background-color: #fff`
then `background: #000` leaves the single entry `BackgroundColor(black)`
(and the reverse order leaves `BackgroundColor(white)`). -/
theorem C1_style_override (st : Style) (h : (st.props.map discrim).Nodup)
    (prop : Tok) (value : List Tok) (st' : Style)
    (h2 : parse_prop_into prop value st = .ok st') :
    (st'.props.map discrim).Nodup
    ∧ Style.from "background-color: \x23fff" = .ok ⟨[.BackgroundColor CssColor.WHITE]⟩
    ∧ Style.set_property ⟨[.BackgroundColor CssColor.WHITE]⟩ "background" "\x23000"
        = .ok ⟨[.BackgroundColor CssColor.BLACK]⟩
    ∧ Style.from "background: \x23000" = .ok ⟨[.BackgroundColor CssColor.BLACK]⟩
    ∧ Style.set_property ⟨[.BackgroundColor CssColor.BLACK]⟩ "background-color" "\x23fff"
        = .ok ⟨[.BackgroundColor CssColor.WHITE]⟩ :=
  ⟨parse_prop_into_nodup prop value st st' h2 h, by decide, by decide, by decide, by decide⟩

/-- C1 witness: the theorem applied to the empty style and the shorthand
declaration `padding: 10px 20px`. -/
theorem C1_witness :
    ((Style.mk [.PaddingTop (.Px (f32 10)), .PaddingRight (.Px (f32 20)),
        .PaddingBottom (.Px (f32 10)), .PaddingLeft (.Px (f32 20))]).props.map discrim).Nodup
    ∧ Style.from "background-color: \x23fff" = .ok ⟨[.BackgroundColor CssColor.WHITE]⟩
    ∧ Style.set_property ⟨[.BackgroundColor CssColor.WHITE]⟩ "background" "\x23000"
        = .ok ⟨[.BackgroundColor CssColor.BLACK]⟩
    ∧ Style.from "background: \x23000" = .ok ⟨[.BackgroundColor CssColor.BLACK]⟩
    ∧ Style.set_property ⟨[.BackgroundColor CssColor.BLACK]⟩ "background-color" "\x23fff"
        = .ok ⟨[.BackgroundColor CssColor.WHITE]⟩ :=
  C1_style_override Style.new (by decide) (s2b "padding") (tokenize (s2b "10px 20px"))
    ⟨[.PaddingTop (.Px (f32 10)), .PaddingRight (.Px (f32 20)),
      .PaddingBottom (.Px (f32 10)), .PaddingLeft (.Px (f32 20))]⟩ (by decide)

/-- C3: the parsed selector parts are stored subject-first, ancestor-last
— the reverse of source text order (`buildParts` reverses the source-order
sequence of tags and combinators) — and in particular
`"body > div.test div#test"` parses to exactly
`Identifier(test), LocalName(div), Ancestor, ClassName(test),
LocalName(div), Parent, LocalName(body)`. -/
theorem C3_selector_subject_first :
    (∀ (head : SelectorPart) (tail : List (Option SelectorPart × SelectorPart)),
      buildParts head tail
        = (head :: tail.flatMap (fun ct => ct.1.toList ++ [ct.2])).reverse)
    ∧ (Selector.from "body > div.test div\x23test").parts =
      [.Component (.Identifier (s2b "test")), .Component (.LocalName (s2b "div")),
        .Combinator .Ancestor, .Component (.ClassName (s2b "test")),
        .Component (.LocalName (s2b "div")), .Combinator .Parent,
        .Component (.LocalName (s2b "body"))] :=
  ⟨buildParts_eq_reverse, by decide⟩

/-- C6 counterexample: parsing the bare token `"0"` yields exactly
`Px(0.0)` — the very value the claim says it must be distinguishable
from (the in-repo `parse_dimension` test asserts the same equality). -/
theorem C6_counterexample :
    dimension [s2b "0"] = PR.ok (CssDimension.Px (f32 0)) [] := by decide

/-- C6 (amended): the dimension parser maps the bare token `"0"` to the
named constant `CssDimension::ZERO`, which is `Px(0.0)` — folded into
`Pixels(0)`, not a distinct variant.  The first conjunct is exactly the
in-src `parse_dimension` test assertion
`dimension().parse(&["0"]) == Ok(CssDimension::Px(0.))`, which is what
pins the folding; the last two conjuncts show the contrast with the
spec-words model, under which the same assertion would be false because
`Zero` would be a genuinely distinct variant. -/
theorem C6_zero_is_px_zero :
    dimension [s2b "0"] = PR.ok (CssDimension.Px (f32 0)) []
    ∧ dimension [s2b "0"] = PR.ok CssDimension.ZERO []
    ∧ dimensionSpec [s2b "0"] = PR.ok CssDimensionSpec.Zero []
    ∧ (CssDimensionSpec.Zero == CssDimensionSpec.Pixels (f32 0)) = false := by decide

/-- C7: the color parser panics (it does not return an error) on a
hex-looking token of length 3/4/6/8 containing a non-hex digit — reachable
from a whole stylesheet parse — while an unrecognized hex length and an
unknown color name do produce an error result. -/
theorem C7_color_panics :
    color [s2b "\x23", s2b "xyz"] = PR.panicked
    ∧ color [s2b "\x23", s2b "zzzzzz"] = PR.panicked
    ∧ color [s2b "\x23", s2b "12345"] = PR.err
    ∧ color [s2b "notacolor"] = PR.err
    ∧ StyleSheet.from "a \x7b color: \x23xyz \x7d" = RustRes.panicked := by decide

/-- Writing back the value a list position already holds is the
identity. -/
lemma set_get_same {α : Type} :
    ∀ (l : List α) (n : Nat) (x : α), l[n]? = some x → l.set n x = l := by
  intro l
  induction l with
  | nil => intro n x h; cases h
  | cons a t ih =>
    intro n x h
    cases n with
    | zero =>
      simp only [List.getElem?_cons_zero, Option.some.injEq] at h
      subst h
      rfl
    | succ m =>
      simp only [List.getElem?_cons_succ] at h
      simp [List.set, ih m x h]

/-- Removing an absent key from the attribute map is the identity. -/
lemma lookupA_none_filter :
    ∀ (attrs : List (String × String)) (k : String), lookupA attrs k = none →
      attrs.filter (fun p => !(p.1 == k)) = attrs := by
  intro attrs k
  induction attrs with
  | nil => intro _; rfl
  | cons a rest ih =>
    obtain ⟨a1, a2⟩ := a
    intro h
    rw [lookupA] at h
    by_cases hk : a1 = k
    · rw [if_pos hk] at h; cases h
    · rw [if_neg hk] at h
      have hb : (a1 == k) = false := beq_eq_false_iff_ne.mpr hk
      simp [List.filter, hb, ih h]

/-- C8: `insert_child` emits exactly `NodeInserted(parent, child, index)`
then `ParentChanged(child)`, and `remove_child` emits exactly
`NodeRemoved(parent, child)` then `ParentChanged(child)`, in those
orders, with no other events (the returned list is the listener's
synchronous invocation sequence). -/
theorem C8_tree_events (d : Document) (p c : NodeId) (i : Nat)
    (hp : (d.tree.slotOf p).isSome = true) (hc : (d.tree.slotOf c).isSome = true)
    (hi : i ≤ (d.children p).length) :
    (d.insert_child p c i).map Prod.snd
      = some [.NodeInserted p c i, .ParentChanged c]
    ∧ (d.remove_child p c).map Prod.snd
      = some [.NodeRemoved p c, .ParentChanged c] := by
  obtain ⟨ps, hps⟩ := Option.isSome_iff_exists.mp hp
  obtain ⟨cs, hcs⟩ := Option.isSome_iff_exists.mp hc
  constructor
  · have hlen : (d.children p).length = ps.children.length := by
      simp [Document.children, hps]
    simp only [Document.insert_child, IdTree.insert_child, hps, hcs]
    rw [if_pos (hlen ▸ hi)]
    rfl
  · simp only [Document.remove_child, IdTree.remove_child, hps, hcs]
    rfl

/-- C8 witness: the theorem applied to the concrete document `docW`,
inserting node 1 under the root at index 0. -/
theorem C8_witness :
    (docW.tree.slotOf 0).isSome = true ∧ (docW.tree.slotOf 1).isSome = true
    ∧ 0 ≤ (docW.children 0).length
    ∧ (docW.insert_child 0 1 0).map Prod.snd
        = some [.NodeInserted 0 1 0, .ParentChanged 1]
    ∧ (docW.remove_child 0 1).map Prod.snd
        = some [.NodeRemoved 0 1, .ParentChanged 1] := by
  have h := C8_tree_events docW 0 1 0 (by decide) (by decide) (by decide)
  exact ⟨by decide, by decide, by decide, h.1, h.2⟩

/-- C9: `set_text` performs no variant check — on an element node it
still succeeds, replaces the whole payload with a `Text` payload and
emits exactly `TextChanged`, while the read accessor `text()` on the very
same node raises the wrong-variant contract violation. -/
theorem C9_set_text_unchecked (d : Document) (n : NodeId) (s : String)
    (h : d.is_element n = true) :
    (d.set_text n s).map Prod.snd = some [.TextChanged n]
    ∧ (d.set_text n s).map (fun r => r.1.tree.dataOf n) = some (some (.Text s))
    ∧ d.text n = none := by
  cases hg : d.tree.slots[n]? with
  | none => exfalso; simp [Document.is_element, IdTree.dataOf, hg] at h
  | some oslot =>
    cases oslot with
    | none => exfalso; simp [Document.is_element, IdTree.dataOf, hg] at h
    | some sl =>
      cases hdata : sl.data with
      | Text s0 =>
        exfalso; simp [Document.is_element, IdTree.dataOf, hg, hdata] at h
      | Element ed =>
        have hslot : d.tree.slotOf n = some sl := by simp [IdTree.slotOf, hg]
        have hlt : n < d.tree.slots.length := (List.getElem?_eq_some.mp hg).1
        refine ⟨?_, ?_, ?_⟩
        · simp [Document.set_text, hslot]
        · have hset : ∀ a, (d.tree.slots.set n a)[n]? = some a :=
            fun a => List.getElem?_set_eq_of_lt a hlt
          simp [Document.set_text, hslot, IdTree.setSlot, IdTree.dataOf, hset]
        · simp [Document.text, IdTree.dataOf, hg, hdata, NodeData.text]

/-- C9 witness: the theorem applied to the element node 1 of `docW`. -/
theorem C9_witness :
    docW.is_element 1 = true
    ∧ (docW.set_text 1 "yo").map Prod.snd = some [.TextChanged 1]
    ∧ (docW.set_text 1 "yo").map (fun r => r.1.tree.dataOf 1)
        = some (some (.Text "yo"))
    ∧ docW.text 1 = none := by
  have h := C9_set_text_unchecked docW 1 "yo" (by decide)
  exact ⟨by decide, h.1, h.2.1, h.2.2⟩

/-- C10: `remove_attribute` with an absent attribute name still emits
exactly one `AttributesChanged(element)` event, and the whole document
state is returned unchanged. -/
theorem C10_remove_attribute_event (d : Document) (n : NodeId) (k : String)
    (h1 : d.is_element n = true) (h2 : d.attribute n k = none) :
    d.remove_attribute n k = some (d, [.AttributesChanged n]) := by
  cases hg : d.tree.slots[n]? with
  | none => exfalso; simp [Document.is_element, IdTree.dataOf, hg] at h1
  | some oslot =>
    cases oslot with
    | none => exfalso; simp [Document.is_element, IdTree.dataOf, hg] at h1
    | some sl =>
      cases hdata : sl.data with
      | Text s0 =>
        exfalso; simp [Document.is_element, IdTree.dataOf, hg, hdata] at h1
      | Element ed =>
        have hslot : d.tree.slotOf n = some sl := by simp [IdTree.slotOf, hg]
        have hlook : lookupA ed.attributes k = none := by
          simpa [Document.attribute, IdTree.dataOf, hg, hdata, NodeData.el] using h2
        have hfilter := lookupA_none_filter ed.attributes k hlook
        simp only [Document.remove_attribute, hslot, hdata, hfilter]
        have hsl : ({ sl with data := NodeData.Element ed } : Slot) = sl := by
          obtain ⟨d0, p0, c0⟩ := sl
          cases hdata
          rfl
        rw [hsl]
        simp only [IdTree.setSlot, set_get_same _ _ _ hg]

/-- C10 witness: the theorem applied to the element node 1 of `docW` and
the absent attribute name `"missing"`. -/
theorem C10_witness :
    docW.is_element 1 = true ∧ docW.attribute 1 "missing" = none
    ∧ docW.remove_attribute 1 "missing" = some (docW, [.AttributesChanged 1]) := by
  have h := C10_remove_attribute_event docW 1 "missing" (by decide) (by decide)
  exact ⟨by decide, by decide, h⟩

/-- C2 counterexample: a sheet beginning with a stray `}` (a malformed
block) makes all three alternatives of `sheet()` fail at the first token,
ending the repetition: the well-formed rule after it yields no `Rule`,
reducing the count of well-formed rules from 1 to 0. -/
theorem C2_counterexample :
    rulesLen (StyleSheet.from "\x7d a \x7b color: \x23fff \x7d") = some 0
    ∧ rulesLen (StyleSheet.from "a \x7b color: \x23fff \x7d") = some 1 := by decide

/-- C2 (amended): the stylesheet parser itself never fails as a whole
(the repetition never yields an error), and a sheet containing an unknown
at-rule or a skippable malformed block yields a `Rule` for every
well-formed rule elsewhere, in source order with no count reduction —
*unless* the parse halts early at a token where no alternative matches
(e.g. a stray leading `}`), which silently discards all later rules. -/
theorem C2_forgiving_parse :
    (∀ ts : List Tok, (sheet ts).isErr = false)
    ∧ StyleSheet.from "a \x7bcolor: \x23fff\x7d @media \x7b x \x7b v: 0 \x7d \x7d b \x7bcolor: \x23000\x7d"
      = .ok ⟨[⟨⟨[.Component (.LocalName (s2b "a"))]⟩, ⟨[.Color CssColor.WHITE]⟩⟩,
              ⟨⟨[.Component (.LocalName (s2b "b"))]⟩, ⟨[.Color CssColor.BLACK]⟩⟩]⟩
    ∧ rulesLen (StyleSheet.from ":root \x7b\x7d a \x7b v: 0 \x7d") = some 2
    ∧ rulesLen (StyleSheet.from "@media \x7b a \x7b v: 0 \x7d \x7d a \x7b\x7d b \x7b\x7d") = some 2
    ∧ rulesLen (StyleSheet.from "\x7d a \x7b color: \x23fff \x7d") = some 0 := by
  refine ⟨fun ts => ?_, by decide, by decide, by decide, by decide⟩
  simp only [sheet]
  cases h : sheetLoop (ts.length + 1) [] ts with
  | ok v r => rfl
  | err => have := sheetLoop_ne_err (ts.length + 1) [] ts; rw [h] at this; exact absurd this (by simp [PR.isErr])
  | panicked => rfl

end Graffiti

section SelectorSheetChecks
open Graffiti

example : (Selector.from "*").parts = [.Combinator .Universal] := by decide
example : (Selector.from "body").parts = [.Component (.LocalName (s2b "body"))] := by decide
example : (Selector.from "\x23app").parts = [.Component (.Identifier (s2b "app"))] := by decide
example : (Selector.from ".btn").parts = [.Component (.ClassName (s2b "btn"))] := by decide
example : (Selector.from ".btn.btn-primary").parts =
    [.Component (.ClassName (s2b "btn-primary")), .Component (.ClassName (s2b "btn"))] := by
  decide
example : (Selector.from "*.test").parts =
    [.Component (.ClassName (s2b "test")), .Combinator .Universal] := by decide
example : (Selector.from "div\x23app.test").parts =
    [.Component (.ClassName (s2b "test")), .Component (.Identifier (s2b "app")),
      .Component (.LocalName (s2b "div"))] := by decide
example : (Selector.from "html, body").parts =
    [.Component (.LocalName (s2b "body")), .Combinator .Or,
      .Component (.LocalName (s2b "html"))] := by decide
example : (Selector.from ":root").parts = [.Component .Unsupported] := by decide
example : (Selector.from "* + *").parts =
    [.Combinator .Universal, .Component .Unsupported, .Combinator .Universal] := by decide
example : (Selector.from "").parts = [.Component .Unsupported] := by decide
example : (Selector.from " ").parts = [.Component .Unsupported] := by decide
example : (Selector.from "a,,b").parts = [.Component .Unsupported] := by decide
example : (Selector.from "a>>b").parts = [.Component .Unsupported] := by decide
example : (Selector.from "body > div, div button span").parts =
    [.Component (.LocalName (s2b "span")), .Combinator .Ancestor,
      .Component (.LocalName (s2b "button")), .Combinator .Ancestor,
      .Component (.LocalName (s2b "div")), .Combinator .Or,
      .Component (.LocalName (s2b "div")), .Combinator .Parent,
      .Component (.LocalName (s2b "body"))] := by decide

example : StyleSheet.from "div \x7b color: \x23fff \x7d" =
    .ok ⟨[⟨⟨[.Component (.LocalName (s2b "div"))]⟩, ⟨[.Color CssColor.WHITE]⟩⟩]⟩ := by decide
example : (StyleSheet.from " *\x7b\x7d") =
    .ok ⟨[⟨⟨[.Combinator .Universal]⟩, ⟨[]⟩⟩]⟩ := by decide
example : rulesLen (StyleSheet.from "\n*\x7b\n\x7d\n") = some 1 := by decide
example : rulesLen (StyleSheet.from ":root \x7b\x7d a \x7b v: 0 \x7d") = some 2 := by decide
example : rulesLen (StyleSheet.from "a \x7b\x7d @media \x7b a \x7b v: 0 \x7d \x7d b \x7b\x7d") = some 2 := by decide
example : rulesLen (StyleSheet.from "@media \x7b a \x7b v: 0 \x7d \x7d a \x7b\x7d b \x7b\x7d") = some 2 := by decide

end SelectorSheetChecks

section StyleChecks
open Graffiti

example : Style.from "overflow: hidden" =
    .ok ⟨[.OverflowX .Hidden, .OverflowY .Hidden]⟩ := by decide
example : Style.from "overflow: visible hidden" =
    .ok ⟨[.OverflowX .Visible, .OverflowY .Hidden]⟩ := by decide
example : Style.from "flex: 1" =
    .ok ⟨[.FlexGrow (f32 1), .FlexShrink (f32 1), .FlexBasis .Auto]⟩ := by decide
example : Style.from "flex: 2 3 10px" =
    .ok ⟨[.FlexGrow (f32 2), .FlexShrink (f32 3), .FlexBasis (.Px (f32 10))]⟩ := by decide
example : Style.from "padding: 0" =
    .ok ⟨[.PaddingTop CssDimension.ZERO, .PaddingRight CssDimension.ZERO,
      .PaddingBottom CssDimension.ZERO, .PaddingLeft CssDimension.ZERO]⟩ := by decide
example : Style.from "padding: 10px 20px" =
    .ok ⟨[.PaddingTop (.Px (f32 10)), .PaddingRight (.Px (f32 20)),
      .PaddingBottom (.Px (f32 10)), .PaddingLeft (.Px (f32 20))]⟩ := by decide
example : Style.from "background: none" =
    .ok ⟨[.BackgroundColor CssColor.TRANSPARENT]⟩ := by decide
example : Style.from "background: \x23000" =
    .ok ⟨[.BackgroundColor CssColor.BLACK]⟩ := by decide
example : runFull ((longhandTable (s2b "padding-left")).getD (fun _ => PR.err)) [s2b "10", s2b "px"] =
    .ok (StyleProp.PaddingLeft (.Px (f32 10))) := by decide
example : runFull ((longhandTable (s2b "margin-top")).getD (fun _ => PR.err)) [s2b "5", s2b "%"] =
    .ok (StyleProp.MarginTop (.Percent (f32 5))) := by decide
example : runFull ((longhandTable (s2b "opacity")).getD (fun _ => PR.err)) [s2b "1"] =
    .ok (StyleProp.Opacity (f32 1)) := by decide
example : runFull ((longhandTable (s2b "color")).getD (fun _ => PR.err)) [s2b "\x23", s2b "000000"] =
    .ok (StyleProp.Color CssColor.BLACK) := by decide

end StyleChecks

section ValueChecks
open Graffiti

example : dimension (tokenize (s2b "auto")) = .ok CssDimension.Auto [] := by decide
example : dimension (tokenize (s2b "10px")) = .ok (CssDimension.Px (f32 10)) [] := by decide
example : dimension (tokenize (s2b "100%")) = .ok (CssDimension.Percent (f32 100)) [] := by decide
example : dimension (tokenize (s2b "0")) = .ok (CssDimension.Px (f32 0)) [] := by decide

example : color [s2b "\x23", s2b "000000"] = .ok CssColor.BLACK [] := by decide
example : color [s2b "\x23", s2b "ff0000"] = .ok CssColor.RED [] := by decide
example : color [s2b "\x23", s2b "00ff00"] = .ok CssColor.GREEN [] := by decide
example : color [s2b "\x23", s2b "0000ff"] = .ok CssColor.BLUE [] := by decide
example : color [s2b "\x23", s2b "80808080"] = .ok (CssColor.from_rgba8 128 128 128 128) [] := by
  decide
example : color [s2b "\x23", s2b "00000080"] = .ok (CssColor.from_rgba8 0 0 0 128) [] := by decide
example : color [s2b "\x23", s2b "000"] = .ok CssColor.BLACK [] := by decide
example : color [s2b "\x23", s2b "f00"] = .ok CssColor.RED [] := by decide
example : color [s2b "\x23", s2b "fff"] = .ok CssColor.WHITE [] := by decide
example : color [s2b "\x23", s2b "0000"] = .ok CssColor.TRANSPARENT [] := by decide
example : color [s2b "\x23", s2b "f00f"] = .ok CssColor.RED [] := by decide
example : color (tokenize (s2b "rgb(0, 0, 0)")) = .ok CssColor.BLACK [] := by decide
example : color (tokenize (s2b "rgba(0, 0, 0, 0)")) = .ok CssColor.TRANSPARENT [] := by decide
example : color [s2b "transparent"] = .ok CssColor.TRANSPARENT [] := by decide
example : color [s2b "black"] = .ok CssColor.BLACK [] := by decide

end ValueChecks

section TokenizeChecks
open Graffiti

example : tokenize (s2b "") = [] := by decide
example : tokenize (s2b " ") = [] := by decide
example : tokenize (s2b " /**/ /**/ ") = [] := by decide
example : tokenize (s2b "block") = [s2b "block"] := by decide
example : tokenize (s2b "10px") = [s2b "10", s2b "px"] := by decide
example : tokenize (s2b "-10px") = [s2b "-10", s2b "px"] := by decide
example : tokenize (s2b "ff0") = [s2b "ff0"] := by decide
example : tokenize (s2b "00f") = [s2b "00", s2b "f"] := by decide
example : tokenize (s2b "\x2300f") = [s2b "\x23", s2b "00f"] := by decide
example : tokenize (s2b "0 0 10px 0") =
    [s2b "0", s2b " ", s2b "0", s2b " ", s2b "10", s2b "px", s2b " ", s2b "0"] := by decide
example : tokenize (s2b "a b") = [s2b "a", s2b " ", s2b "b"] := by decide
example : tokenize (s2b ".a .b") = [s2b ".", s2b "a", s2b " ", s2b ".", s2b "b"] := by decide
example : tokenize (s2b "-webkit-xxx") = [s2b "-webkit-xxx"] := by decide
example : tokenize (s2b "--var") = [s2b "--var"] := by decide
example : tokenize (s2b "/**/ a /**/ b \x7b\x7d") =
    [s2b "a", s2b " ", s2b "b", s2b "\x7b", s2b "\x7d"] := by decide

end TokenizeChecks
